import Mathlib

/-!
Verification development for `scripts/update-appicon-contents.py`.

The script reads `Contents.json` inside an app-icon directory, fills in the
`filename` field of recognised image entries when the corresponding icon file
exists in the same directory, and rewrites the manifest with 2-space
indentation and a trailing newline.

We shallowly embed the script: JSON documents become the inductive `Json`,
the directory's `Contents.json` becomes a `FileState`, and the presence of
icon files in the directory becomes a predicate `icons : String → Bool`.
Python runtime errors (unhandled exceptions) are modelled with `Except Unit`.
-/

namespace AppIcon

/-- JSON values, as produced by Python's `json.load`.  Objects keep their
key order (Python dicts preserve insertion order); keys coming from a parsed
JSON document are strings. Numbers are restricted to integers, which is all
the manifest format uses. -/
inductive Json where
  | null : Json
  | bool : Bool → Json
  | num : Int → Json
  | str : String → Json
  | arr : List Json → Json
  | obj : List (String × Json) → Json
deriving Repr

/-- Python `dict.get(key)` / `dict[key]` read: first entry with the key. -/
def lookupKey : List (String × Json) → String → Option Json
  | [], _ => none
  | (k, v) :: rest, key => if k = key then some v else lookupKey rest key

/-- Python `dict[key] = v`: replace the value at an existing key in place
(keeping its position), or append a fresh entry at the end. -/
def setKey : List (String × Json) → String → Json → List (String × Json)
  | [], key, v => [(key, v)]
  | (k, w) :: rest, key, v =>
      if k = key then (k, v) :: rest else (k, w) :: setKey rest key v

/-- Python `s.split(sep)` for a single-character separator, on the character
list of the string: splits at every occurrence, keeping empty pieces, and
always returns at least one piece. -/
def pySplit (sep : Char) : List Char → List (List Char)
  | [] => [[]]
  | c :: rest =>
      if c = sep then [] :: pySplit sep rest
      else
        match pySplit sep rest with
        | [] => [[c]]
        | g :: gs => (c :: g) :: gs

/-- `size.split("x")[0]` from line 53 of the script: the part of `s` before
the first `x` (the whole string when there is no `x`). -/
def sizeKeyOf (s : String) : String :=
  String.mk ((pySplit 'x' s.data).headD [])

/-- Python `j == "lit"` for a string literal: true exactly when `j` is that
string (comparisons between a non-string JSON value and a string are `False`
in Python, never an error). -/
def jsonIsStr (j : Json) (s : String) : Bool :=
  match j with
  | Json.str t => t = s
  | _ => false

/-- The `icon_map` table from lines 32-44 of the script: `(size, scale)`
keys, with `none` standing for Python `None` in the iOS entry. -/
def icon_map : List ((String × Option String) × String) :=
  [ (("16", some "1x"), "icon_16x16.png"),
    (("16", some "2x"), "icon_16x16@2x.png"),
    (("32", some "1x"), "icon_32x32.png"),
    (("32", some "2x"), "icon_32x32@2x.png"),
    (("128", some "1x"), "icon_128x128.png"),
    (("128", some "2x"), "icon_128x128@2x.png"),
    (("256", some "1x"), "icon_256x256.png"),
    (("256", some "2x"), "icon_256x256@2x.png"),
    (("512", some "1x"), "icon_512x512.png"),
    (("512", some "2x"), "icon_512x512@2x.png"),
    (("1024", none), "AppIcon_1024x1024.png") ]

/-- Dictionary lookup `key in icon_map` / `icon_map[key]`. -/
def lookupTable : List ((String × Option String) × String) → (String × Option String) → Option String
  | [], _ => none
  | (k, v) :: rest, key => if k = key then some v else lookupTable rest key

/-- Lines 48-62 of the script, for one element `image` of the `images` list
(already known to be a dict, with entries `kvs`): which filename, if any,
the branch structure selects for the entry, before the on-disk existence
check.  `size` defaults to `""`, `scale` to `None` (JSON `null` and an
absent key are both Python `None`), `idiom` to `""`.

Errors reproduce the unhandled Python exceptions:
a non-string `size` in the `mac` branch makes `size.split` raise, and an
unhashable `scale` (a list or dict) makes the `key in icon_map` test raise. -/
def entryFilename (kvs : List (String × Json)) : Except Unit (Option String) :=
  let size := (lookupKey kvs "size").getD (Json.str "")
  let scale := (lookupKey kvs "scale").getD Json.null
  let idiom := (lookupKey kvs "idiom").getD (Json.str "")
  if jsonIsStr idiom "mac" then
    match size, scale with
    | Json.str s, Json.str t => Except.ok (lookupTable icon_map (sizeKeyOf s, some t))
    | Json.str s, Json.null => Except.ok (lookupTable icon_map (sizeKeyOf s, none))
    | Json.str _, Json.bool _ => Except.ok none
    | Json.str _, Json.num _ => Except.ok none
    | Json.str _, Json.arr _ => Except.error ()
    | Json.str _, Json.obj _ => Except.error ()
    | _, _ => Except.error ()
  else if jsonIsStr idiom "universal" || jsonIsStr idiom "ios" then
    Except.ok (if jsonIsStr size "1024x1024" then lookupTable icon_map ("1024", none) else none)
  else
    Except.ok none

/-- The body of the `for image in ...` loop (lines 47-62): a non-dict
element raises on `image.get`; otherwise the selected filename is written
into the entry when the icon file exists in the app-icon directory. -/
def updateImage (icons : String → Bool) (image : Json) : Except Unit Json :=
  match image with
  | Json.obj kvs =>
    match entryFilename kvs with
    | Except.error e => Except.error e
    | Except.ok none => Except.ok (Json.obj kvs)
    | Except.ok (some filename) =>
        if icons filename then Except.ok (Json.obj (setKey kvs "filename" (Json.str filename)))
        else Except.ok (Json.obj kvs)
  | _ => Except.error ()

/-- The `for image in ...` loop over a list of entries, in order, stopping
at the first unhandled exception (each element mutated in place). -/
def updateList (icons : String → Bool) : List Json → Except Unit (List Json)
  | [] => Except.ok []
  | x :: xs =>
    match updateImage icons x with
    | Except.error e => Except.error e
    | Except.ok y =>
      match updateList icons xs with
      | Except.error e => Except.error e
      | Except.ok ys => Except.ok (y :: ys)

/-- Lines 47-62 on the whole document: `contents.get("images", [])` raises
when `contents` is not a dict; iterating a non-list `images` value raises
unless it is an empty iterable (an empty string or empty dict, whose
iteration yields nothing — a non-empty one yields strings on which
`image.get` raises) or a non-iterable which raises at once; a list is
traversed in order, each element updated in place. -/
def updateImages (icons : String → Bool) (contents : Json) : Except Unit Json :=
  match contents with
  | Json.obj kvs =>
    match lookupKey kvs "images" with
    | none => Except.ok (Json.obj kvs)
    | some (Json.arr xs) =>
        match updateList icons xs with
        | Except.error e => Except.error e
        | Except.ok xs2 => Except.ok (Json.obj (setKey kvs "images" (Json.arr xs2)))
    | some (Json.str s) => if s.isEmpty then Except.ok (Json.obj kvs) else Except.error ()
    | some (Json.obj kvs2) => if kvs2.isEmpty then Except.ok (Json.obj kvs) else Except.error ()
    | some _ => Except.error ()
  | _ => Except.error ()

/-- The `Contents.json` file inside the app-icon directory: absent, present
but not valid JSON, or present and parsed as the given value. -/
inductive FileState where
  | absent : FileState
  | malformed : FileState
  | parsed : Json → FileState
deriving Repr

/-- `indent * level` spaces, as `json.dump(..., indent=2)` emits them. -/
def indentStr (d : Nat) : String :=
  String.mk (List.replicate (2 * d) ' ')

/-- One lowercase hexadecimal digit. -/
def hexDigit (n : Nat) : Char :=
  if n < 10 then Char.ofNat (48 + n) else Char.ofNat (87 + n)

/-- Four lowercase hexadecimal digits, as in Python's `\uXXXX` escapes. -/
def hex4 (n : Nat) : String :=
  String.mk [hexDigit (n / 4096 % 16), hexDigit (n / 256 % 16),
             hexDigit (n / 16 % 16), hexDigit (n % 16)]

/-- Python `json.dumps` escaping of one character (default `ensure_ascii`):
the two-character escapes for quote, backslash and control whitespace,
printable ASCII unchanged, everything else as `\uXXXX`, with a surrogate
pair above the basic plane. -/
def escapeChar (c : Char) : String :=
  if c = '"' then "\\\""
  else if c = '\\' then "\\\\"
  else if c = '\n' then "\\n"
  else if c = '\r' then "\\r"
  else if c = '\t' then "\\t"
  else if c.toNat = 8 then "\\b"
  else if c.toNat = 12 then "\\f"
  else if 32 ≤ c.toNat && c.toNat ≤ 126 then String.singleton c
  else if c.toNat < 65536 then "\\u" ++ hex4 c.toNat
  else "\\u" ++ hex4 (55296 + (c.toNat - 65536) / 1024) ++
       "\\u" ++ hex4 (56320 + (c.toNat - 65536) % 1024)

/-- A JSON string literal with Python's escaping. -/
def quoteStr (s : String) : String :=
  "\"" ++ String.join (s.data.map escapeChar) ++ "\""

mutual

/-- `json.dump(j, f, indent=2)` at nesting depth `d`: empty containers are
inlined, non-empty ones put each element on its own indented line, items
separated by `,\n` and keys from values by `: `. -/
def dump : Json → Nat → String
  | Json.null, _ => "null"
  | Json.bool true, _ => "true"
  | Json.bool false, _ => "false"
  | Json.num n, _ => toString n
  | Json.str s, _ => quoteStr s
  | Json.arr [], _ => "[]"
  | Json.arr (x :: xs), d =>
      "[\n" ++ dumpElems (x :: xs) (d + 1) ++ "\n" ++ indentStr d ++ "]"
  | Json.obj [], _ => "\x7b\x7d"
  | Json.obj (p :: ps), d =>
      "\x7b\n" ++ dumpMembers (p :: ps) (d + 1) ++ "\n" ++ indentStr d ++ "\x7d"

/-- The elements of a non-empty array, one per line at depth `d`. -/
def dumpElems : List Json → Nat → String
  | [], _ => ""
  | [x], d => indentStr d ++ dump x d
  | x :: y :: xs, d => indentStr d ++ dump x d ++ ",\n" ++ dumpElems (y :: xs) d

/-- The members of a non-empty object, one per line at depth `d`. -/
def dumpMembers : List (String × Json) → Nat → String
  | [], _ => ""
  | [(k, v)], d => indentStr d ++ quoteStr k ++ ": " ++ dump v d
  | (k, v) :: q :: ps, d =>
      indentStr d ++ quoteStr k ++ ": " ++ dump v d ++ ",\n" ++ dumpMembers (q :: ps) d

end

/-- The whole of `update_contents_json` (lines 12-69).  The result records
the Python return value (`Except.error` for an unhandled exception), the
`Contents.json` state after the call, and the text written to the file, if
any.  `icons_dir` is the optional second parameter, accepted and unused. -/
def update_contents_json (file : FileState) (icons : String → Bool)
    (icons_dir : Option String) : (Except Unit Bool) × FileState × Option String :=
  match file with
  | FileState.absent => (Except.ok false, FileState.absent, none)
  | FileState.malformed => (Except.error (), FileState.malformed, none)
  | FileState.parsed contents =>
    match updateImages icons contents with
    | Except.error e => (Except.error e, FileState.parsed contents, none)
    | Except.ok contents2 =>
        (Except.ok true, FileState.parsed contents2,
         some (dump contents2 0 ++ "\n"))

/-- The `__main__` block (lines 72-81): process exit status.  `sys.exit(0 if
success else 1)`, and an unhandled exception makes the interpreter exit with
status 1. -/
def script_exit (file : FileState) (icons : String → Bool)
    (icons_dir : Option String) : Nat :=
  match (update_contents_json file icons icons_dir).1 with
  | Except.ok true => 0
  | Except.ok false => 1
  | Except.error _ => 1

/-- The key form under which a Python `scale` value can appear in an
`icon_map` key: JSON `null` (Python `None`) as `none`, a JSON string as
itself; other values never equal a table key component. -/
def pyScaleKey : Json → Option (Option String)
  | Json.null => some none
  | Json.str t => some (some t)
  | _ => none

/-- A well-formed image entry in the sense of the spec's data model: a JSON
object whose `size` field, when present, is a string, and whose `scale`
field, when present, is a string or `null`. -/
def WFEntry (img : Json) : Prop :=
  ∃ kvs, img = Json.obj kvs ∧
    (∀ v, lookupKey kvs "size" = some v → ∃ s, v = Json.str s) ∧
    (∀ v, lookupKey kvs "scale" = some v → (∃ t, v = Json.str t) ∨ v = Json.null)

/-- An entry the update must leave alone: its idiom/size/scale select no
filename from the table, or they select one whose file is absent. -/
def untouchedEntry (icons : String → Bool) (img : Json) : Prop :=
  ∀ kvs, img = Json.obj kvs →
    entryFilename kvs = Except.ok none ∨
    ∃ fn, entryFilename kvs = Except.ok (some fn) ∧ icons fn = false

/-! ### Lemmas about the association-list primitives -/

theorem lookupKey_setKey_self (kvs : List (String × Json)) (k : String) (v : Json) :
    lookupKey (setKey kvs k v) k = some v := by
  induction kvs with
  | nil => simp [setKey, lookupKey]
  | cons p rest ih =>
    obtain ⟨k', w⟩ := p
    by_cases h : k' = k
    · simp [setKey, h, lookupKey]
    · simp [setKey, h, lookupKey, ih]

theorem lookupKey_setKey_ne (kvs : List (String × Json)) (k : String) (v : Json)
    (k' : String) (h : k' ≠ k) :
    lookupKey (setKey kvs k v) k' = lookupKey kvs k' := by
  induction kvs with
  | nil => simp [setKey, lookupKey, Ne.symm h]
  | cons p rest ih =>
    obtain ⟨k0, w⟩ := p
    by_cases h0 : k0 = k
    · subst h0
      simp [setKey, lookupKey, Ne.symm h]
    · simp [setKey, h0, lookupKey, ih]

theorem setKey_setKey_self (kvs : List (String × Json)) (k : String) (v : Json) :
    setKey (setKey kvs k v) k v = setKey kvs k v := by
  induction kvs with
  | nil => simp [setKey]
  | cons p rest ih =>
    obtain ⟨k0, w⟩ := p
    by_cases h0 : k0 = k
    · simp [setKey, h0]
    · simp [setKey, h0, ih]

theorem pySplit_ne_nil (sep : Char) (l : List Char) : pySplit sep l ≠ [] := by
  cases l with
  | nil => simp [pySplit]
  | cons c rest =>
    by_cases h : c = sep
    · simp [pySplit, h]
    · simp only [pySplit, if_neg h]
      cases pySplit sep rest <;> simp

theorem pySplit_no_sep (sep : Char) (l : List Char) (h : ∀ c ∈ l, c ≠ sep) :
    pySplit sep l = [l] := by
  induction l with
  | nil => rfl
  | cons c rest ih =>
    have hc : c ≠ sep := h c (by simp)
    have hr : pySplit sep rest = [rest] := ih (fun c' hm => h c' (by simp [hm]))
    simp [pySplit, hc, hr]

/-- A size string with no `x` is its own size key. -/
theorem sizeKeyOf_no_x (s : String) (h : ∀ c ∈ s.data, c ≠ 'x') : sizeKeyOf s = s := by
  unfold sizeKeyOf
  rw [pySplit_no_sep _ _ h]
  rfl

theorem jsonIsStr_iff (j : Json) (s : String) : jsonIsStr j s = true ↔ j = Json.str s := by
  cases j <;> simp [jsonIsStr]

/-! ### Lemmas about the per-entry update -/

/-- Writing the `filename` field does not change which filename the branch
structure selects: the branches read only `size`, `scale` and `idiom`. -/
theorem entryFilename_setKey_filename (kvs : List (String × Json)) (v : Json) :
    entryFilename (setKey kvs "filename" v) = entryFilename kvs := by
  have h1 := lookupKey_setKey_ne kvs "filename" v "size" (by decide)
  have h2 := lookupKey_setKey_ne kvs "filename" v "scale" (by decide)
  have h3 := lookupKey_setKey_ne kvs "filename" v "idiom" (by decide)
  simp only [entryFilename, h1, h2, h3]

/-- An entry the table or the disk rejects is returned unchanged. -/
theorem updateImage_untouched (icons : String → Bool) (img y : Json)
    (hu : untouchedEntry icons img) (h : updateImage icons img = Except.ok y) :
    y = img := by
  cases img with
  | obj kvs =>
    rcases hu kvs rfl with h0 | ⟨fn, h0, hic⟩
    · simp [updateImage, h0] at h
      exact h.symm
    · simp [updateImage, h0, hic] at h
      exact h.symm
  | null => simp [updateImage] at h
  | bool b => simp [updateImage] at h
  | num n => simp [updateImage] at h
  | str s => simp [updateImage] at h
  | arr xs => simp [updateImage] at h

/-- Re-running the per-entry update on its own output changes nothing. -/
theorem updateImage_idem (icons : String → Bool) (img y : Json)
    (h : updateImage icons img = Except.ok y) :
    updateImage icons y = Except.ok y := by
  cases img with
  | obj kvs =>
    cases hef : entryFilename kvs with
    | error e => simp [updateImage, hef] at h
    | ok o =>
      cases o with
      | none =>
        simp [updateImage, hef] at h
        subst h
        simp [updateImage, hef]
      | some fn =>
        cases hic : icons fn with
        | false =>
          simp [updateImage, hef, hic] at h
          subst h
          simp [updateImage, hef, hic]
        | true =>
          simp [updateImage, hef, hic] at h
          subst h
          simp [updateImage, entryFilename_setKey_filename, hef, hic,
            setKey_setKey_self]
  | null => simp [updateImage] at h
  | bool b => simp [updateImage] at h
  | num n => simp [updateImage] at h
  | str s => simp [updateImage] at h
  | arr xs => simp [updateImage] at h

/-- Under the spec's data model the branch structure never raises. -/
theorem entryFilename_wf (kvs : List (String × Json))
    (hsize : ∀ v, lookupKey kvs "size" = some v → ∃ s, v = Json.str s)
    (hscale : ∀ v, lookupKey kvs "scale" = some v → (∃ t, v = Json.str t) ∨ v = Json.null) :
    ∃ o, entryFilename kvs = Except.ok o := by
  have hs : ∃ s, (lookupKey kvs "size").getD (Json.str "") = Json.str s := by
    cases h : lookupKey kvs "size" with
    | none => exact ⟨"", rfl⟩
    | some v =>
      obtain ⟨s, rfl⟩ := hsize v h
      exact ⟨s, rfl⟩
  have hc : (∃ t, (lookupKey kvs "scale").getD Json.null = Json.str t) ∨
      (lookupKey kvs "scale").getD Json.null = Json.null := by
    cases h : lookupKey kvs "scale" with
    | none => exact Or.inr rfl
    | some v =>
      rcases hscale v h with ⟨t, rfl⟩ | rfl
      · exact Or.inl ⟨t, rfl⟩
      · exact Or.inr rfl
  obtain ⟨s, hs⟩ := hs
  simp only [entryFilename, hs]
  rcases hc with ⟨t, hc⟩ | hc <;> rw [hc] <;>
    (repeat' split) <;> first | exact ⟨_, rfl⟩ | simp_all

/-- Under the spec's data model the per-entry update never raises. -/
theorem updateImage_wf (icons : String → Bool) (img : Json) (h : WFEntry img) :
    ∃ y, updateImage icons img = Except.ok y := by
  obtain ⟨kvs, rfl, hsize, hscale⟩ := h
  obtain ⟨o, ho⟩ := entryFilename_wf kvs hsize hscale
  cases o with
  | none => exact ⟨Json.obj kvs, by simp [updateImage, ho]⟩
  | some fn =>
    cases hic : icons fn with
    | false => exact ⟨Json.obj kvs, by simp [updateImage, ho, hic]⟩
    | true =>
      exact ⟨Json.obj (setKey kvs "filename" (Json.str fn)),
        by simp [updateImage, ho, hic]⟩

/-! ### Lemmas about the loop over the images list -/

theorem updateList_ok_length (icons : String → Bool) (xs ys : List Json)
    (h : updateList icons xs = Except.ok ys) : ys.length = xs.length := by
  induction xs generalizing ys with
  | nil =>
    simp [updateList] at h
    subst h
    rfl
  | cons x0 rest ih =>
    cases hx0 : updateImage icons x0 with
    | error e => simp [updateList, hx0] at h
    | ok y0 =>
      cases hr : updateList icons rest with
      | error e => simp [updateList, hx0, hr] at h
      | ok ys0 =>
        simp [updateList, hx0, hr] at h
        subst h
        simp [ih ys0 hr]

theorem updateList_ok_get (icons : String → Bool) (xs ys : List Json)
    (h : updateList icons xs = Except.ok ys) :
    ∀ (i : Nat) (x : Json), xs[i]? = some x →
      ∃ y, ys[i]? = some y ∧ updateImage icons x = Except.ok y := by
  induction xs generalizing ys with
  | nil =>
    intro i x hx
    simp at hx
  | cons x0 rest ih =>
    cases hx0 : updateImage icons x0 with
    | error e => simp [updateList, hx0] at h
    | ok y0 =>
      cases hr : updateList icons rest with
      | error e => simp [updateList, hx0, hr] at h
      | ok ys0 =>
        simp [updateList, hx0, hr] at h
        subst h
        intro i x hx
        cases i with
        | zero =>
          simp at hx
          subst hx
          exact ⟨y0, by simp, hx0⟩
        | succ n =>
          simp at hx
          obtain ⟨y, hy, hu⟩ := ih ys0 hr n x hx
          exact ⟨y, by simpa using hy, hu⟩

theorem updateList_idem (icons : String → Bool) (xs ys : List Json)
    (h : updateList icons xs = Except.ok ys) : updateList icons ys = Except.ok ys := by
  induction xs generalizing ys with
  | nil =>
    simp [updateList] at h
    subst h
    rfl
  | cons x0 rest ih =>
    cases hx0 : updateImage icons x0 with
    | error e => simp [updateList, hx0] at h
    | ok y0 =>
      cases hr : updateList icons rest with
      | error e => simp [updateList, hx0, hr] at h
      | ok ys0 =>
        simp [updateList, hx0, hr] at h
        subst h
        simp [updateList, updateImage_idem icons x0 y0 hx0, ih ys0 hr]

theorem updateList_wf (icons : String → Bool) (xs : List Json)
    (h : ∀ x ∈ xs, WFEntry x) : ∃ ys, updateList icons xs = Except.ok ys := by
  induction xs with
  | nil => exact ⟨[], rfl⟩
  | cons x0 rest ih =>
    obtain ⟨y0, hy0⟩ := updateImage_wf icons x0 (h x0 (by simp))
    obtain ⟨ys, hys⟩ := ih (fun x hx => h x (by simp [hx]))
    exact ⟨y0 :: ys, by simp [updateList, hy0, hys]⟩

/-! ### Lemmas about the whole-document pass -/

theorem updateImages_ok_cases (icons : String → Bool) (kvs : List (String × Json))
    (j2 : Json) (h : updateImages icons (Json.obj kvs) = Except.ok j2) :
    j2 = Json.obj kvs ∨
    ∃ xs xs2, lookupKey kvs "images" = some (Json.arr xs) ∧
      updateList icons xs = Except.ok xs2 ∧
      j2 = Json.obj (setKey kvs "images" (Json.arr xs2)) := by
  cases hl : lookupKey kvs "images" with
  | none =>
    simp [updateImages, hl] at h
    exact Or.inl h.symm
  | some v =>
    cases v with
    | arr xs =>
      cases hr : updateList icons xs with
      | error e => simp [updateImages, hl, hr] at h
      | ok xs2 =>
        simp [updateImages, hl, hr] at h
        exact Or.inr ⟨xs, xs2, rfl, hr, h.symm⟩
    | str s =>
      by_cases hs : s.isEmpty <;> simp [updateImages, hl, hs] at h
      exact Or.inl h.symm
    | obj kvs2 =>
      by_cases hs : kvs2.isEmpty <;> simp [updateImages, hl, hs] at h
      exact Or.inl h.symm
    | null => simp [updateImages, hl] at h
    | bool b => simp [updateImages, hl] at h
    | num n => simp [updateImages, hl] at h

theorem updateImages_idem (icons : String → Bool) (j j2 : Json)
    (h : updateImages icons j = Except.ok j2) :
    updateImages icons j2 = Except.ok j2 := by
  cases j with
  | obj kvs =>
    rcases updateImages_ok_cases icons kvs j2 h with rfl | ⟨xs, xs2, hl, hr, rfl⟩
    · exact h
    · simp [updateImages, lookupKey_setKey_self,
        updateList_idem icons xs xs2 hr, setKey_setKey_self]
  | null => simp [updateImages] at h
  | bool b => simp [updateImages] at h
  | num n => simp [updateImages] at h
  | str s => simp [updateImages] at h
  | arr xs => simp [updateImages] at h

/-! ### The claims -/

/-- C1: for every manifest whose well-formed `images` list has at position
`i` a `mac` entry whose `(size prefix before "x", scale)` pair is a key of
the icon table and whose mapped filename exists in the directory, the
update succeeds and sets that entry's `filename` field to the mapped
filename (in particular `idiom="mac"`, `size="32x32"`, `scale="2x"` with
`icon_32x32@2x.png` present yields `filename = "icon_32x32@2x.png"`). -/
theorem mac_entry_filename_set (icons : String → Bool) (icons_dir : Option String)
    (kvs : List (String × Json)) (xs : List Json) (i : Nat)
    (entry : List (String × Json)) (s : String) (sk : Option String) (fn : String)
    (himg : lookupKey kvs "images" = some (Json.arr xs))
    (hwf : ∀ x ∈ xs, WFEntry x)
    (hi : xs[i]? = some (Json.obj entry))
    (hidiom : (lookupKey entry "idiom").getD (Json.str "") = Json.str "mac")
    (hsize : (lookupKey entry "size").getD (Json.str "") = Json.str s)
    (hscale : pyScaleKey ((lookupKey entry "scale").getD Json.null) = some sk)
    (htab : lookupTable icon_map (sizeKeyOf s, sk) = some fn)
    (hex : icons fn = true) :
    ∃ xs2,
      update_contents_json (FileState.parsed (Json.obj kvs)) icons icons_dir =
        (Except.ok true,
         FileState.parsed (Json.obj (setKey kvs "images" (Json.arr xs2))),
         some (dump (Json.obj (setKey kvs "images" (Json.arr xs2))) 0 ++ "\n")) ∧
      xs2.length = xs.length ∧
      xs2[i]? = some (Json.obj (setKey entry "filename" (Json.str fn))) := by
  have hmac : jsonIsStr ((lookupKey entry "idiom").getD (Json.str "")) "mac" = true := by
    rw [hidiom]
    rfl
  have hef : entryFilename entry = Except.ok (some fn) := by
    cases hscv : (lookupKey entry "scale").getD Json.null <;>
      rw [hscv] at hscale <;> simp [pyScaleKey] at hscale
    · subst hscale
      simp [entryFilename, hsize, hscv, hmac, htab]
    · subst hscale
      simp [entryFilename, hsize, hscv, hmac, htab]
  have hupd : updateImage icons (Json.obj entry) =
      Except.ok (Json.obj (setKey entry "filename" (Json.str fn))) := by
    simp [updateImage, hef, hex]
  obtain ⟨xs2, hlist⟩ := updateList_wf icons xs hwf
  obtain ⟨y, hy, huy⟩ := updateList_ok_get icons xs xs2 hlist i _ hi
  rw [hupd] at huy
  refine ⟨xs2, ?_, updateList_ok_length icons xs xs2 hlist, ?_⟩
  · simp [update_contents_json, updateImages, himg, hlist]
  · rw [hy, ← Except.ok.inj huy]

/-- C2: the update modifies nothing but the `filename` fields of matched
entries: along the run, every top-level key other than `images` keeps its
value, an absent `images` key stays absent, and a list-valued `images`
keeps its length and positional correspondence, with every entry the table
or the disk rejects kept exactly as it was. -/
theorem update_frame (icons : String → Bool) (icons_dir : Option String)
    (kvs : List (String × Json)) (j2 : Json)
    (h : (update_contents_json (FileState.parsed (Json.obj kvs)) icons icons_dir).2.1 =
      FileState.parsed j2) :
    ∃ kvs2, j2 = Json.obj kvs2 ∧
      (∀ k, k ≠ "images" → lookupKey kvs2 k = lookupKey kvs k) ∧
      (lookupKey kvs "images" = none → lookupKey kvs2 "images" = none) ∧
      (∀ xs, lookupKey kvs "images" = some (Json.arr xs) →
        ∃ xs2, lookupKey kvs2 "images" = some (Json.arr xs2) ∧
          xs2.length = xs.length ∧
          (∀ (i : Nat) (x : Json), xs[i]? = some x →
            ∃ y, xs2[i]? = some y ∧ (y = x ∨ updateImage icons x = Except.ok y)) ∧
          (∀ (i : Nat) (x : Json), xs[i]? = some x → untouchedEntry icons x →
            xs2[i]? = some x)) := by
  have base : ∀ kvs0 : List (String × Json),
      ∃ kvs2, Json.obj kvs0 = Json.obj kvs2 ∧
      (∀ k, k ≠ "images" → lookupKey kvs2 k = lookupKey kvs0 k) ∧
      (lookupKey kvs0 "images" = none → lookupKey kvs2 "images" = none) ∧
      (∀ xs, lookupKey kvs0 "images" = some (Json.arr xs) →
        ∃ xs2, lookupKey kvs2 "images" = some (Json.arr xs2) ∧
          xs2.length = xs.length ∧
          (∀ (i : Nat) (x : Json), xs[i]? = some x →
            ∃ y, xs2[i]? = some y ∧ (y = x ∨ updateImage icons x = Except.ok y)) ∧
          (∀ (i : Nat) (x : Json), xs[i]? = some x → untouchedEntry icons x →
            xs2[i]? = some x)) := by
    intro kvs0
    exact ⟨kvs0, rfl, fun k _ => rfl, fun hn => hn,
      fun xs hxs => ⟨xs, hxs, rfl,
        fun i x hx => ⟨x, hx, Or.inl rfl⟩,
        fun i x hx _ => hx⟩⟩
  cases hu : updateImages icons (Json.obj kvs) with
  | error e =>
    simp [update_contents_json, hu] at h
    rw [← h]
    exact base kvs
  | ok j2' =>
    simp [update_contents_json, hu] at h
    subst h
    rcases updateImages_ok_cases icons kvs j2' hu with rfl | ⟨xs, xs2, hl, hr, rfl⟩
    · exact base kvs
    · refine ⟨setKey kvs "images" (Json.arr xs2), rfl,
        fun k hk => lookupKey_setKey_ne kvs "images" (Json.arr xs2) k hk,
        fun hn => absurd (hn ▸ hl) (by simp), fun xs' hxs' => ?_⟩
      rw [hl] at hxs'
      have hxx : xs = xs' := Json.arr.inj (Option.some.inj hxs')
      subst hxx
      refine ⟨xs2, lookupKey_setKey_self kvs "images" (Json.arr xs2),
        updateList_ok_length icons xs xs2 hr, fun i x hx => ?_, fun i x hx hun => ?_⟩
      · obtain ⟨y, hy, huy⟩ := updateList_ok_get icons xs xs2 hr i x hx
        exact ⟨y, hy, Or.inr huy⟩
      · obtain ⟨y, hy, huy⟩ := updateList_ok_get icons xs xs2 hr i x hx
        rw [hy, updateImage_untouched icons x y hun huy]

/-- C3: an entry whose idiom is `ios` or `universal` gets
`AppIcon_1024x1024.png` written into `filename` exactly when its size is
the string `1024x1024` and the file exists, whatever its scale; any other
size leaves the entry untouched. -/
theorem ios_universal_1024 (icons : String → Bool) (kvs : List (String × Json))
    (hidiom : (lookupKey kvs "idiom").getD (Json.str "") = Json.str "ios" ∨
              (lookupKey kvs "idiom").getD (Json.str "") = Json.str "universal") :
    ((lookupKey kvs "size").getD (Json.str "") = Json.str "1024x1024" →
      icons "AppIcon_1024x1024.png" = true →
      updateImage icons (Json.obj kvs) =
        Except.ok (Json.obj (setKey kvs "filename" (Json.str "AppIcon_1024x1024.png")))) ∧
    ((lookupKey kvs "size").getD (Json.str "") ≠ Json.str "1024x1024" →
      updateImage icons (Json.obj kvs) = Except.ok (Json.obj kvs)) := by
  have hmac : jsonIsStr ((lookupKey kvs "idiom").getD (Json.str "")) "mac" = false := by
    rcases hidiom with h | h <;> rw [h] <;> rfl
  have hui : (jsonIsStr ((lookupKey kvs "idiom").getD (Json.str "")) "universal" ||
      jsonIsStr ((lookupKey kvs "idiom").getD (Json.str "")) "ios") = true := by
    rcases hidiom with h | h <;> rw [h] <;> rfl
  constructor
  · intro hsz hex
    have h1024 : jsonIsStr ((lookupKey kvs "size").getD (Json.str "")) "1024x1024" = true := by
      rw [hsz]
      rfl
    have hef : entryFilename kvs = Except.ok (some "AppIcon_1024x1024.png") := by
      simp [entryFilename, hmac, hui, h1024]
      rfl
    simp [updateImage, hef, hex]
  · intro hsz
    have h1024 : jsonIsStr ((lookupKey kvs "size").getD (Json.str "")) "1024x1024" = false := by
      exact Bool.eq_false_iff.mpr (fun hh => hsz ((jsonIsStr_iff _ _).mp hh))
    have hef : entryFilename kvs = Except.ok none := by
      simp [entryFilename, hmac, hui, h1024]
    simp [updateImage, hef]

/-- C4: a missing `Contents.json` makes the function return `False`
without raising, leaves the directory untouched and writes nothing; as a
command this exits with status 1, and the exit status is 0 exactly when
the function returns `True`. -/
theorem missing_manifest (icons : String → Bool) (icons_dir : Option String) :
    update_contents_json FileState.absent icons icons_dir =
      (Except.ok false, FileState.absent, none) ∧
    script_exit FileState.absent icons icons_dir = 1 ∧
    ∀ file : FileState, (script_exit file icons icons_dir = 0 ↔
      (update_contents_json file icons icons_dir).1 = Except.ok true) := by
  refine ⟨rfl, rfl, fun file => ?_⟩
  cases h : (update_contents_json file icons icons_dir).1 with
  | ok b => cases b <;> simp [script_exit, h]
  | error e => simp [script_exit, h]

/-- C5: the update is idempotent: a second run on the directory state a
completed run leaves behind returns the same value, leaves the same
`Contents.json` and writes the same text. -/
theorem update_idempotent (file : FileState) (icons : String → Bool)
    (icons_dir : Option String) (r : Bool) (f2 : FileState) (w : Option String)
    (h : update_contents_json file icons icons_dir = (Except.ok r, f2, w)) :
    update_contents_json f2 icons icons_dir = (Except.ok r, f2, w) := by
  cases file with
  | absent =>
    simp [update_contents_json] at h
    obtain ⟨rfl, rfl, rfl⟩ := h
    rfl
  | malformed => simp [update_contents_json] at h
  | parsed j =>
    cases hu : updateImages icons j with
    | error e => simp [update_contents_json, hu] at h
    | ok j2 =>
      simp [update_contents_json, hu] at h
      obtain ⟨rfl, rfl, rfl⟩ := h
      simp [update_contents_json, updateImages_idem icons j j2 hu]

/-- C6: the optional icons-directory argument never influences the result:
any two invocations differing only in it coincide, file state, written
text and return value included. -/
theorem icons_dir_irrelevant (file : FileState) (icons : String → Bool)
    (i1 i2 : Option String) :
    update_contents_json file icons i1 = update_contents_json file icons i2 := rfl

/-- C7 counterexample: a manifest whose `images` field is the number `5`
parses as JSON, yet the update raises an unhandled error instead of
treating it as zero entries, rewrites nothing and does not return `True`. -/
theorem images_number_raises :
    update_contents_json (FileState.parsed (Json.obj [("images", Json.num 5)]))
        (fun _ => false) none =
      (Except.error (), FileState.parsed (Json.obj [("images", Json.num 5)]), none) := rfl

/-- C7 amended: a manifest with no `images` key is treated as having zero
entries — no entry updated, the file rewritten, `True` returned — while an
`images` field holding a number makes the update raise, leaving the file
unwritten. -/
theorem images_absent_or_nonlist (icons : String → Bool) (icons_dir : Option String)
    (kvs : List (String × Json)) (n : Int)
    (h : lookupKey kvs "images" = none) :
    update_contents_json (FileState.parsed (Json.obj kvs)) icons icons_dir =
      (Except.ok true, FileState.parsed (Json.obj kvs),
       some (dump (Json.obj kvs) 0 ++ "\n")) ∧
    update_contents_json (FileState.parsed (Json.obj (("images", Json.num n) :: kvs)))
        icons icons_dir =
      (Except.error (),
       FileState.parsed (Json.obj (("images", Json.num n) :: kvs)), none) := by
  constructor
  · simp [update_contents_json, updateImages, h]
  · have hl : lookupKey (("images", Json.num n) :: kvs) "images" = some (Json.num n) := by
      simp [lookupKey]
    simp [update_contents_json, updateImages, hl]

/-- C8 counterexample: a `Contents.json` holding the JSON document `[]`
parses as JSON, yet the update raises on `contents.get` instead of
rewriting the file and returning `True`. -/
theorem toplevel_array_raises :
    update_contents_json (FileState.parsed (Json.arr [])) (fun _ => false) none =
      (Except.error (), FileState.parsed (Json.arr []), none) := rfl

/-- C8 amended: whenever `Contents.json` exists, parses as JSON and the
update completes without raising, it returned `True` and rewrote the file
in place — even if no entry was modified — with the 2-space-indented
serialization of the full manifest followed by exactly one newline. -/
theorem rewrite_on_success (icons : String → Bool) (icons_dir : Option String)
    (j : Json) (b : Bool) (f2 : FileState) (w : Option String)
    (h : update_contents_json (FileState.parsed j) icons icons_dir = (Except.ok b, f2, w)) :
    b = true ∧ ∃ j2, f2 = FileState.parsed j2 ∧ w = some (dump j2 0 ++ "\n") := by
  cases hu : updateImages icons j with
  | error e => simp [update_contents_json, hu] at h
  | ok j2 =>
    simp [update_contents_json, hu] at h
    obtain ⟨rfl, rfl, rfl⟩ := h
    exact ⟨rfl, j2, rfl, rfl⟩

/-- C9: absent `size`, `scale` or `idiom` keys never raise: `size`
defaults to `""`, `scale` to `None`, `idiom` to `""`; an entry with no
idiom is always returned unchanged, and a `mac` entry with no scale is
looked up in the table under scale `None`. -/
theorem missing_keys_defaults (icons : String → Bool) (kvs : List (String × Json))
    (s : String) :
    (lookupKey kvs "idiom" = none →
      updateImage icons (Json.obj kvs) = Except.ok (Json.obj kvs)) ∧
    (lookupKey kvs "idiom" = some (Json.str "mac") → lookupKey kvs "scale" = none →
      (lookupKey kvs "size").getD (Json.str "") = Json.str s →
      entryFilename kvs = Except.ok (lookupTable icon_map (sizeKeyOf s, none))) ∧
    (lookupKey kvs "size" = none → lookupKey kvs "scale" = none →
      lookupKey kvs "idiom" = none →
      updateImage icons (Json.obj kvs) = Except.ok (Json.obj kvs)) := by
  have noIdiom : lookupKey kvs "idiom" = none →
      updateImage icons (Json.obj kvs) = Except.ok (Json.obj kvs) := by
    intro h
    have hef : entryFilename kvs = Except.ok none := by
      simp [entryFilename, h, jsonIsStr]
    simp [updateImage, hef]
  refine ⟨noIdiom, fun h1 h2 hs => ?_, fun _ _ h => noIdiom h⟩
  simp [entryFilename, hs, h2, h1, jsonIsStr]

/-- C10: a `mac` entry whose size string contains no `x` uses the whole
string as the size key — no size format validation happens — so
`idiom="mac"`, `size="32"`, `scale="1x"` still matches the table and gets
`filename = "icon_32x32.png"` when that file exists. -/
theorem mac_size_without_x (icons : String → Bool) (kvs : List (String × Json))
    (s t : String)
    (hidiom : lookupKey kvs "idiom" = some (Json.str "mac"))
    (hsize : lookupKey kvs "size" = some (Json.str s))
    (hscale : lookupKey kvs "scale" = some (Json.str t))
    (hnox : ∀ c ∈ s.data, c ≠ 'x') :
    entryFilename kvs = Except.ok (lookupTable icon_map (s, some t)) ∧
    (s = "32" → t = "1x" → icons "icon_32x32.png" = true →
      updateImage icons (Json.obj kvs) =
        Except.ok (Json.obj (setKey kvs "filename" (Json.str "icon_32x32.png")))) := by
  have h1 : entryFilename kvs = Except.ok (lookupTable icon_map (sizeKeyOf s, some t)) := by
    simp [entryFilename, hidiom, hsize, hscale, jsonIsStr]
  rw [sizeKeyOf_no_x s hnox] at h1
  refine ⟨h1, fun hs ht hex => ?_⟩
  subst hs
  subst ht
  have htab : lookupTable icon_map ("32", some "1x") = some "icon_32x32.png" := rfl
  rw [htab] at h1
  simp [updateImage, h1, hex]

/-! ### Witnesses -/

/-- Witness for C1 at the spec's own example: one `mac` entry of size
`32x32`, scale `2x`, with `icon_32x32@2x.png` present. -/
theorem mac_entry_filename_set_witness :
    ∃ xs2,
      update_contents_json
          (FileState.parsed (Json.obj [("images", Json.arr [Json.obj
            [("size", Json.str "32x32"), ("idiom", Json.str "mac"),
             ("scale", Json.str "2x")]])]))
          (fun f => f = "icon_32x32@2x.png") none =
        (Except.ok true,
         FileState.parsed (Json.obj (setKey [("images", Json.arr [Json.obj
            [("size", Json.str "32x32"), ("idiom", Json.str "mac"),
             ("scale", Json.str "2x")]])] "images" (Json.arr xs2))),
         some (dump (Json.obj (setKey [("images", Json.arr [Json.obj
            [("size", Json.str "32x32"), ("idiom", Json.str "mac"),
             ("scale", Json.str "2x")]])] "images" (Json.arr xs2))) 0 ++ "\n")) ∧
      xs2.length = [Json.obj [("size", Json.str "32x32"), ("idiom", Json.str "mac"),
        ("scale", Json.str "2x")]].length ∧
      xs2[0]? = some (Json.obj (setKey
        [("size", Json.str "32x32"), ("idiom", Json.str "mac"), ("scale", Json.str "2x")]
        "filename" (Json.str "icon_32x32@2x.png"))) := by
  refine mac_entry_filename_set (fun f => f = "icon_32x32@2x.png") none
    [("images", Json.arr [Json.obj [("size", Json.str "32x32"),
      ("idiom", Json.str "mac"), ("scale", Json.str "2x")]])]
    [Json.obj [("size", Json.str "32x32"), ("idiom", Json.str "mac"),
      ("scale", Json.str "2x")]]
    0
    [("size", Json.str "32x32"), ("idiom", Json.str "mac"), ("scale", Json.str "2x")]
    "32x32" (some "2x") "icon_32x32@2x.png"
    rfl ?_ rfl rfl rfl rfl rfl rfl
  intro x hx
  simp only [List.mem_singleton] at hx
  subst hx
  refine ⟨_, rfl, fun v hv => ?_, fun v hv => ?_⟩
  · simp [lookupKey] at hv
    exact ⟨"32x32", hv.symm⟩
  · simp [lookupKey] at hv
    exact Or.inl ⟨"2x", hv.symm⟩

/-- Witness for C2 on a manifest with a `watch` entry (no table match) and
an extra top-level key. -/
theorem update_frame_witness :
    ∃ kvs2,
      Json.obj [("images", Json.arr [Json.obj [("idiom", Json.str "watch")]]),
        ("info", Json.num 1)] = Json.obj kvs2 ∧
      (∀ k, k ≠ "images" →
        lookupKey kvs2 k = lookupKey [("images", Json.arr [Json.obj
          [("idiom", Json.str "watch")]]), ("info", Json.num 1)] k) ∧
      (lookupKey [("images", Json.arr [Json.obj [("idiom", Json.str "watch")]]),
          ("info", Json.num 1)] "images" = none →
        lookupKey kvs2 "images" = none) ∧
      (∀ xs, lookupKey [("images", Json.arr [Json.obj [("idiom", Json.str "watch")]]),
          ("info", Json.num 1)] "images" = some (Json.arr xs) →
        ∃ xs2, lookupKey kvs2 "images" = some (Json.arr xs2) ∧
          xs2.length = xs.length ∧
          (∀ (i : Nat) (x : Json), xs[i]? = some x →
            ∃ y, xs2[i]? = some y ∧
              (y = x ∨ updateImage (fun _ => false) x = Except.ok y)) ∧
          (∀ (i : Nat) (x : Json), xs[i]? = some x →
            untouchedEntry (fun _ => false) x → xs2[i]? = some x)) :=
  update_frame (fun _ => false) none
    [("images", Json.arr [Json.obj [("idiom", Json.str "watch")]]), ("info", Json.num 1)]
    (Json.obj [("images", Json.arr [Json.obj [("idiom", Json.str "watch")]]),
      ("info", Json.num 1)])
    rfl

/-- Witness for C3: an `ios` entry of size `1024x1024` with the icon
present gets its filename set. -/
theorem ios_universal_1024_witness :
    updateImage (fun f => f = "AppIcon_1024x1024.png")
        (Json.obj [("idiom", Json.str "ios"), ("size", Json.str "1024x1024")]) =
      Except.ok (Json.obj [("idiom", Json.str "ios"), ("size", Json.str "1024x1024"),
        ("filename", Json.str "AppIcon_1024x1024.png")]) := by
  have h := (ios_universal_1024 (fun f => f = "AppIcon_1024x1024.png")
    [("idiom", Json.str "ios"), ("size", Json.str "1024x1024")] (Or.inl rfl)).1 rfl rfl
  exact h

/-- Witness for C5 on an empty manifest object. -/
theorem update_idempotent_witness :
    update_contents_json (FileState.parsed (Json.obj [])) (fun _ => false) none =
      (Except.ok true, FileState.parsed (Json.obj []), some "\x7b\x7d\n") :=
  update_idempotent (FileState.parsed (Json.obj [])) (fun _ => false) none true
    (FileState.parsed (Json.obj [])) (some "\x7b\x7d\n") rfl

/-- Witness for the amended C7: an empty object manifest is rewritten with
success, and an `images` field holding the number `7` raises. -/
theorem images_absent_or_nonlist_witness :
    (update_contents_json (FileState.parsed (Json.obj [])) (fun _ => false) none =
      (Except.ok true, FileState.parsed (Json.obj []),
       some (dump (Json.obj []) 0 ++ "\n"))) ∧
    (update_contents_json (FileState.parsed (Json.obj [("images", Json.num 7)]))
        (fun _ => false) none =
      (Except.error (), FileState.parsed (Json.obj [("images", Json.num 7)]), none)) :=
  images_absent_or_nonlist (fun _ => false) none [] 7 rfl

/-- Witness for the amended C8 on an empty manifest object. -/
theorem rewrite_on_success_witness :
    true = true ∧ ∃ j2, FileState.parsed (Json.obj []) = FileState.parsed j2 ∧
      (some "\x7b\x7d\n" : Option String) = some (dump j2 0 ++ "\n") :=
  rewrite_on_success (fun _ => false) none (Json.obj []) true
    (FileState.parsed (Json.obj [])) (some "\x7b\x7d\n") rfl

/-- Witness for C9: an entry with no idiom is returned unchanged, and a
`mac` entry with neither size nor scale is looked up with the defaults. -/
theorem missing_keys_defaults_witness :
    updateImage (fun _ => false) (Json.obj [("foo", Json.str "bar")]) =
      Except.ok (Json.obj [("foo", Json.str "bar")]) ∧
    entryFilename [("idiom", Json.str "mac")] =
      Except.ok (lookupTable icon_map (sizeKeyOf "", none)) :=
  ⟨(missing_keys_defaults (fun _ => false) [("foo", Json.str "bar")] "").1 rfl,
   (missing_keys_defaults (fun _ => false) [("idiom", Json.str "mac")] "").2.1 rfl rfl rfl⟩

/-- Witness for C10: `idiom="mac"`, `size="32"`, `scale="1x"` with
`icon_32x32.png` present. -/
theorem mac_size_without_x_witness :
    entryFilename [("idiom", Json.str "mac"), ("size", Json.str "32"),
        ("scale", Json.str "1x")] =
      Except.ok (lookupTable icon_map ("32", some "1x")) ∧
    updateImage (fun f => f = "icon_32x32.png")
        (Json.obj [("idiom", Json.str "mac"), ("size", Json.str "32"),
          ("scale", Json.str "1x")]) =
      Except.ok (Json.obj [("idiom", Json.str "mac"), ("size", Json.str "32"),
        ("scale", Json.str "1x"), ("filename", Json.str "icon_32x32.png")]) := by
  have h := mac_size_without_x (fun f => f = "icon_32x32.png")
    [("idiom", Json.str "mac"), ("size", Json.str "32"), ("scale", Json.str "1x")]
    "32" "1x" rfl rfl rfl (by decide)
  exact ⟨h.1, h.2 rfl rfl rfl⟩

end AppIcon
